import Mathlib

set_option maxHeartbeats 1000000

/-!
Shallow embedding of the nds cache-coherence fragment:

* the delete/invalidation coordinator of package nds
  (DeleteMulti, Delete, deleteMulti), and
* the pipelined redis cache backend of package cachers/redis
  (set, AddMulti, SetMulti, CompareAndSwapMulti, DeleteMulti, GetMulti
  and the server-side atomic CAS script).

Go errors are modelled by one inductive type; byte slices by lists of
naturals; the pipelined connection by an oracle recording per-send
queueing errors, the flush outcome and the ordered reply stream.  The
goroutine that queues and flushes commands and the loop that drains
replies are modelled sequentially: queue everything, flush, then drain,
which is the synchronisation order the code relies on.
-/

/-- Model of the Go error values appearing in the fragment. -/
inductive Err where
  | invalidKey                       -- datastore.ErrInvalidKey
  | notStored                        -- nds.ErrNotStored
  | casConflict                      -- nds.ErrCASConflict
  | cacheMiss                        -- nds.ErrCacheMiss
  | redisNil                         -- redigo redis.ErrNil
  | serverErr (msg : String)         -- a redis server error reply whose Error() is msg
  | ioErr (code : Nat)               -- an opaque transport or backend error
  | typeErr                          -- a redigo type-conversion failure
  | malformed (got : Nat)            -- redis: cached item should be atleast 4 bytes
  | lenMismatch (got want : Nat)     -- redis: len(cachedItems) != len(keys)
  | multi (es : List (Option Err))   -- nds.MultiError, positional per-item errors

/-- The comparison err == redis.ErrNil performed by the backend. -/
def Err.isRedisNil : Err → Bool
  | .redisNil => true
  | _ => false

/-- The Error() string of an error, as far as the backend inspects it:
only server error replies are ever compared against a literal string. -/
def Err.errString : Err → String
  | .serverErr msg => msg
  | .redisNil => "redigo: nil returned"
  | _ => ""

/-- A redis reply value (the interface value redigo returns). -/
inductive RValue where
  | int (n : Int)
  | bulk (b : List Nat)
  | simple (s : String)

namespace memcache

/-- appengine memcache.Item, restricted to the fields the coordinator sets. -/
structure Item where
  Key : String
  Flags : Nat
  Value : List Nat
  Expiration : Int

end memcache

namespace nds

/-- nds.Item, the cache item of the backend contract.  The unexported
cas field set through SetCASInfo and read through GetCASInfo is
modelled by casInfo: some b models a non-nil byte-slice token, none
models an absent token, a nil token or a non-byte-slice value. -/
structure Item where
  Key : String
  Value : List Nat
  Flags : Nat
  Expiration : Int
  casInfo : Option (List Nat)

/-- Modelled from the spec: memcacheLock, the fixed locked sentinel
payload written as the Value of every lock-marker item; its definition
is outside the given fragment. -/
def memcacheLock : List Nat := [108, 111, 99, 107, 101, 100]

/-- Modelled from the spec: memcacheLockTime, the fixed short
lock-marker expiration duration (nanoseconds); its definition is
outside the given fragment. -/
def memcacheLockTime : Int := 32000000000

/-- The external collaborators of the coordinator: key completeness,
the cache-key derivation (modelled from the spec: createMemcacheKey is
outside the given fragment), the successive rand.Uint32 draws, and the
memcache / datastore batch operations with their Go result (nil or an
error, which may itself be a MultiError). -/
structure Env where
  incomplete : String → Bool
  createMemcacheKey : String → String
  randUint32 : Nat → Nat
  memcacheSetMulti : List memcache.Item → Option Err
  datastoreDeleteMulti : List String → Option Err

/-- The observable side effects of a coordinated delete. -/
inductive Call where
  | memcacheSet (items : List memcache.Item)
  | storeDelete (keys : List String)

/-- The lock-marker item built for one key in the loop of deleteMulti,
where i is the index of the rand.Uint32 draw consumed by this item. -/
def mkLockItem (env : Env) (key : String) (i : Nat) : memcache.Item :=
  { Key := env.createMemcacheKey key
    Flags := env.randUint32 i % 4294967296
    Value := memcacheLock
    Expiration := memcacheLockTime }

/-- The item-building loop of deleteMulti: walk the keys in order,
return datastore.ErrInvalidKey at the first incomplete key, otherwise
collect one lock-marker item per key. -/
def buildLockItems (env : Env) : List String → Nat → Except Err (List memcache.Item)
  | [], _ => .ok []
  | key :: rest, i =>
    if env.incomplete key then .error .invalidKey
    else
      match buildLockItems env rest (i + 1) with
      | .error e => .error e
      | .ok items => .ok (mkLockItem env key i :: items)

/-- deleteMulti: build the lock-marker items (aborting on an incomplete
key before any call is issued), install them with memcache.SetMulti,
and only on a nil SetMulti result call datastore.DeleteMulti, whose
result is returned.  The second component records the calls issued. -/
def deleteMulti (env : Env) (keys : List String) : Option Err × List Call :=
  match buildLockItems env keys 0 with
  | .error e => (some e, [])
  | .ok lockMemcacheItems =>
    match env.memcacheSetMulti lockMemcacheItems with
    | some err => (some err, [Call.memcacheSet lockMemcacheItems])
    | none =>
      (env.datastoreDeleteMulti keys,
       [Call.memcacheSet lockMemcacheItems, Call.storeDelete keys])

/-- An appengine.Context value: either the package-internal context
produced by NewContext, or any other context. -/
inductive AppengineCtx where
  | ndsContext
  | other (id : Nat)

/-- DeleteMulti: the type switch of the exported entry point.  A
context from NewContext runs the coordination protocol; any other
context delegates directly to datastore.DeleteMulti. -/
def DeleteMulti (env : Env) (c : AppengineCtx) (keys : List String) :
    Option Err × List Call :=
  match c with
  | .ndsContext => deleteMulti env keys
  | .other _ => (env.datastoreDeleteMulti keys, [Call.storeDelete keys])

end nds

namespace redis

/-- The four little-endian bytes binary.Write emits for a uint32. -/
def uint32LE (n : Nat) : List Nat :=
  [n % 256, n / 256 % 256, n / 65536 % 256, n / 16777216 % 256]

/-- The first four payload bytes read back as a little-endian uint32
by binary.Read in GetMulti. -/
def fromLE4 : List Nat → Nat
  | b0 :: b1 :: b2 :: b3 :: _ => b0 + 256 * b1 + 65536 * b2 + 16777216 * b3
  | _ => 0

/-- The wire payload the backend builds into its buffer before every
SET and every CAS script call: the four little-endian flag bytes
followed by the raw value bytes. -/
def encodePayload (flags : Nat) (value : List Nat) : List Nat :=
  uint32LE flags ++ value

/-- The per-key decoding performed by GetMulti on a non-nil cached
payload: reject payloads shorter than the 4-byte flags header,
otherwise split off the flags and keep a copy of the whole raw payload
as the CAS token.  (The binary.Read of the flags cannot fail once the
length check has passed, so no second error case arises.) -/
def decodeEntry (key : String) (cacheItem : List Nat) : Except Err nds.Item :=
  if cacheItem.length < 4 then .error (.malformed cacheItem.length)
  else
    .ok { Key := key
          Flags := fromLE4 cacheItem
          Value := cacheItem.drop 4
          Expiration := 0
          casInfo := some cacheItem }

/-- The wire commands the backend queues. -/
inductive Cmd where
  | setCmd (key : String) (payload : List Nat) (nx : Bool) (px : Option Int)
  | evalsha (sha : String) (key : String) (expected payload : List Nat) (expire : Int)
  | del (key : String)

/-- The oracle for one pooled connection during one batch call:
sendErr n is the queueing error of the n-th Send call, flushErr the
outcome of the single Flush, recv n the n-th reply drained, and
mgetReply the converted reply of the single MGET round trip GetMulti
performs. -/
structure Conn where
  sendErr : Nat → Option Err
  flushErr : Option Err
  recv : Nat → Except Err RValue
  mgetReply : List String → Except Err (List (Option (List Nat)))

/-- Go Duration.Truncate toward zero to a multiple of m (here always
one millisecond, a positive constant). -/
def goTruncate (d m : Int) : Int := d - Int.tmod d m

/-- The SET command queued by set for one item: payload, optional NX,
and PX with the expiration truncated to whole milliseconds whenever
the expiration is non-zero. -/
def setCmdOf (nx : Bool) (it : nds.Item) : Cmd :=
  Cmd.setCmd it.Key (encodePayload it.Flags it.Value) nx
    (if it.Expiration = 0 then none
     else some (Int.tdiv (goTruncate it.Expiration 1000000) 1000000))

/-- The queueing loop of set: one Send per item, in order, recording
the per-slot queueing error; s is the running Send-call counter. -/
def setSendLoop (conn : Conn) (nx : Bool) : List nds.Item → Nat → List (Option Err × Cmd)
  | [], _ => []
  | it :: rest, s => (conn.sendErr s, setCmdOf nx it) :: setSendLoop conn nx rest (s + 1)

/-- The reply translation of the drain loop of set: a nil reply on a
conditional (NX) write becomes nds.ErrNotStored, every other receive
error is kept as is. -/
def setTranslate (nx : Bool) : Except Err RValue → Option Err
  | .ok _ => none
  | .error e => some (if nx && e.isRedisNil then Err.notStored else e)

/-- The drain loop of set over the per-slot queueing results: a slot
whose Send already failed keeps its error and consumes no reply;
otherwise the next reply is drained (j is the running Receive
counter).  The boolean is the hasErr flag. -/
def setDrain (conn : Conn) (nx : Bool) : List (Option Err) → Nat → List (Option Err) × Bool
  | [], _ => ([], false)
  | some e :: rest, j =>
    let t := setDrain conn nx rest j
    (some e :: t.1, true)
  | none :: rest, j =>
    match setTranslate nx (conn.recv j) with
    | none =>
      let t := setDrain conn nx rest (j + 1)
      (none :: t.1, t.2)
    | some e =>
      let t := setDrain conn nx rest (j + 1)
      (some e :: t.1, true)

/-- set: queue one SET per item, flush, then drain.  A failed flush is
returned as the single call-wide error (the drain loop breaks at once
and the function returns flushErr); otherwise the per-slot errors are
returned as a MultiError exactly when any slot failed. -/
def set (conn : Conn) (nx : Bool) (items : List nds.Item) : Option Err :=
  let me0 := (setSendLoop conn nx items 0).map Prod.fst
  match conn.flushErr with
  | some e => some e
  | none =>
    let d := setDrain conn nx me0 0
    if d.2 then some (.multi d.1) else none

/-- AddMulti delegates to set with the NX flag. -/
def AddMulti (conn : Conn) (items : List nds.Item) : Option Err :=
  set conn true items

/-- SetMulti delegates to set without the NX flag. -/
def SetMulti (conn : Conn) (items : List nds.Item) : Option Err :=
  set conn false items

/-- The EVALSHA command CompareAndSwapMulti queues for an item carrying
the CAS token cas: key, expected raw bytes, fresh payload, and the
expiration in whole milliseconds, with zero expiration sent as -1. -/
def casCmd (sha : String) (it : nds.Item) (cas : List Nat) : Cmd :=
  Cmd.evalsha sha it.Key cas (encodePayload it.Flags it.Value)
    (if it.Expiration = 0 then -1
     else Int.tdiv (goTruncate it.Expiration 1000000) 1000000)

/-- The queueing loop of CompareAndSwapMulti: an item with no valid CAS
token gets nds.ErrNotStored in its slot and no command; an item with a
token queues one EVALSHA (s counts the Send calls actually made). -/
def casSendLoop (conn : Conn) (sha : String) :
    List nds.Item → Nat → List (Option Err × Option Cmd)
  | [], _ => []
  | it :: rest, s =>
    match it.casInfo with
    | some cas => (conn.sendErr s, some (casCmd sha it cas)) :: casSendLoop conn sha rest (s + 1)
    | none => (some Err.notStored, none) :: casSendLoop conn sha rest s

/-- The reply translation of the drain loop of CompareAndSwapMulti:
redis.ErrNil becomes nds.ErrNotStored, the scripted conflict reply
(Error() equal to the literal cas conflict string) becomes
nds.ErrCASConflict, anything else is kept. -/
def casTranslate : Except Err RValue → Option Err
  | .ok _ => none
  | .error e =>
    some (if e.isRedisNil then Err.notStored
          else if e.errString = "cas conflict" then Err.casConflict
          else e)

/-- The drain loop of CompareAndSwapMulti, structured exactly like the
drain loop of set. -/
def casDrain (conn : Conn) : List (Option Err) → Nat → List (Option Err) × Bool
  | [], _ => ([], false)
  | some e :: rest, j =>
    let t := casDrain conn rest j
    (some e :: t.1, true)
  | none :: rest, j =>
    match casTranslate (conn.recv j) with
    | none =>
      let t := casDrain conn rest (j + 1)
      (none :: t.1, t.2)
    | some e =>
      let t := casDrain conn rest (j + 1)
      (some e :: t.1, true)

/-- CompareAndSwapMulti: queue the EVALSHAs, flush, drain; flush
failure supersedes the per-slot bookkeeping. -/
def CompareAndSwapMulti (conn : Conn) (sha : String) (items : List nds.Item) : Option Err :=
  let me0 := (casSendLoop conn sha items 0).map Prod.fst
  match conn.flushErr with
  | some e => some e
  | none =>
    let d := casDrain conn me0 0
    if d.2 then some (.multi d.1) else none

/-- The per-slot error vector of CompareAndSwapMulti (a projection of
the same computation, exposed so that individual slots can be
inspected). -/
def casMultiME (conn : Conn) (sha : String) (items : List nds.Item) : List (Option Err) :=
  (casDrain conn ((casSendLoop conn sha items 0).map Prod.fst) 0).1

/-- The number of items carrying a valid CAS token; items before slot
j with a token are exactly the receives consumed before slot j when no
Send fails. -/
def countTok (items : List nds.Item) : Nat :=
  (items.filter fun it => it.casInfo.isSome).length

/-- redigo redis.Int64 conversion, as far as DEL replies need it:
errors pass through and integer replies convert. -/
def redisInt64 : Except Err RValue → Except Err Int
  | .error e => .error e
  | .ok (.int n) => .ok n
  | .ok _ => .error .typeErr

/-- The queueing loop of the backend DeleteMulti: one DEL per key. -/
def delSendLoop (conn : Conn) : List String → Nat → List (Option Err × Cmd)
  | [], _ => []
  | k :: rest, s => (conn.sendErr s, Cmd.del k) :: delSendLoop conn rest (s + 1)

/-- The drain loop of the backend DeleteMulti: a reply that is not the
integer 1 marks the slot with nds.ErrCacheMiss. -/
def delDrain (conn : Conn) : List (Option Err) → Nat → List (Option Err) × Bool
  | [], _ => ([], false)
  | some e :: rest, j =>
    let t := delDrain conn rest j
    (some e :: t.1, true)
  | none :: rest, j =>
    match redisInt64 (conn.recv j) with
    | .error e =>
      let t := delDrain conn rest (j + 1)
      (some e :: t.1, true)
    | .ok n =>
      if n = 1 then
        let t := delDrain conn rest (j + 1)
        (none :: t.1, t.2)
      else
        let t := delDrain conn rest (j + 1)
        (some Err.cacheMiss :: t.1, true)

/-- The backend DeleteMulti: queue the DELs, flush, drain; flush
failure supersedes the per-slot bookkeeping. -/
def DeleteMulti (conn : Conn) (keys : List String) : Option Err :=
  let me0 := (delSendLoop conn keys 0).map Prod.fst
  match conn.flushErr with
  | some e => some e
  | none =>
    let d := delDrain conn me0 0
    if d.2 then some (.multi d.1) else none

/-- The Go map write result[key] = item. -/
def mapUpdate (m : String → Option nds.Item) (k : String) (v : nds.Item) :
    String → Option nds.Item :=
  fun q => if q = k then some v else m q

/-- The decoding loop of GetMulti over the key/cached-payload pairs:
nil payloads are skipped with no error entry, short payloads record a
malformed-payload error in their own slot only, decodable payloads are
inserted into the result map.  Returns the map, the positional error
list and the hasErr flag. -/
def getLoop : (String → Option nds.Item) → List (String × Option (List Nat)) →
    (String → Option nds.Item) × List (Option Err) × Bool
  | m, [] => (m, [], false)
  | m, (key, cacheItem) :: rest =>
    match cacheItem with
    | none =>
      let t := getLoop m rest
      (t.1, none :: t.2.1, t.2.2)
    | some ci =>
      match decodeEntry key ci with
      | .error e =>
        let t := getLoop m rest
        (t.1, some e :: t.2.1, true)
      | .ok item =>
        let t := getLoop (mapUpdate m key item) rest
        (t.1, none :: t.2.1, t.2.2)

/-- GetMulti: an empty key list short-circuits to (nil, nil); a failed
MGET or a reply of the wrong length is a call-wide error; otherwise
the pairs are decoded and the per-slot errors are returned as a
MultiError exactly when some slot failed. -/
def GetMulti (conn : Conn) (keys : List String) :
    Option (String → Option nds.Item) × Option Err :=
  if keys.length = 0 then (none, none)
  else
    match conn.mgetReply keys with
    | .error e => (none, some e)
    | .ok cachedItems =>
      if cachedItems.length ≠ keys.length then
        (none, some (.lenMismatch cachedItems.length keys.length))
      else
        let t := getLoop (fun _ => none) (keys.zip cachedItems)
        (some t.1, if t.2.2 then some (.multi t.2.1) else none)

/-- The possible effects of one run of the server-side CAS script. -/
inductive ScriptEffect where
  | setPX (key : String) (val : List Nat) (px : Int)
  | setPlain (key : String) (val : List Nat)
  | conflictReply

/-- The server-side atomic CAS script, run against the current stored
value of the key (none when the key is absent, in which case the Lua
comparison against the expected string is false): on an exact match it
performs the write, with PX exp when exp is non-negative and without
expiry otherwise; on a mismatch it returns the conflict error reply
and writes nothing. -/
def casScriptRun (cur : Option (List Nat)) (key : String)
    (expected newVal : List Nat) (exp : Int) : ScriptEffect :=
  if cur = some expected then
    if 0 ≤ exp then .setPX key newVal exp else .setPlain key newVal
  else .conflictReply

/-- A Go byte-slice reference: backing array identity, offset, length. -/
structure SliceRef where
  arr : Nat
  off : Nat
  len : Nat

/-- A heap of backing arrays, by identity. -/
abbrev Heap := Nat → List Nat

/-- The bytes a slice reference denotes in a heap. -/
def readSlice (h : Heap) (r : SliceRef) : List Nat :=
  ((h r.arr).drop r.off).take r.len

/-- Allocation-level model of the per-entry decode of GetMulti: the
raw payload cacheItem lives in backing array a; after the 4-byte flags
read, buf.Bytes() (the Value slice) aliases that same array from
offset 4; the append of cacheItem onto a nil slice allocates the fresh
array f and copies the whole payload into it, and the CAS token slice
references that fresh array.  Returns the extended heap, the Value
slice and the CAS-token slice. -/
def decodeRefs (h : Heap) (a f : Nat) : Heap × SliceRef × SliceRef :=
  (fun b => if b = f then h a else h b,
   { arr := a, off := 4, len := (h a).length - 4 },
   { arr := f, off := 0, len := (h a).length })

end redis

section CoordinatorLemmas

/-- When every key is complete, the item-building loop succeeds and
produces, position for position, the lock-marker item of that key with
the corresponding random draw. -/
theorem buildLockItems_complete (env : nds.Env) :
    ∀ (keys : List String) (i : Nat),
      (∀ k ∈ keys, env.incomplete k = false) →
      ∃ items, nds.buildLockItems env keys i = Except.ok items ∧
        items.length = keys.length ∧
        ∀ j (hj : j < keys.length),
          items[j]? = some (nds.mkLockItem env (keys.get ⟨j, hj⟩) (i + j)) := by
  intro keys
  induction keys with
  | nil =>
    intro i _
    exact ⟨[], rfl, rfl, fun j hj => absurd hj (by simp)⟩
  | cons k rest ih =>
    intro i hc
    have hk : env.incomplete k = false := hc k (by simp)
    obtain ⟨items, hok, hlen, hget⟩ := ih (i + 1) (fun q hq => hc q (by simp [hq]))
    refine ⟨nds.mkLockItem env k i :: items, ?_, by simp [hlen], ?_⟩
    · simp [nds.buildLockItems, hk, hok]
    · intro j hj
      cases j with
      | zero => simp
      | succ j =>
        have hj' : j < rest.length := by simpa using hj
        have := hget j hj'
        simpa [Nat.add_assoc, Nat.add_comm 1 j] using this

/-- When some key is incomplete, the item-building loop aborts with
datastore.ErrInvalidKey. -/
theorem buildLockItems_incomplete (env : nds.Env) :
    ∀ (keys : List String) (i : Nat),
      (∃ k ∈ keys, env.incomplete k = true) →
      nds.buildLockItems env keys i = Except.error Err.invalidKey := by
  intro keys
  induction keys with
  | nil => intro i h; simp at h
  | cons k rest ih =>
    intro i h
    by_cases hk : env.incomplete k = true
    · simp [nds.buildLockItems, hk]
    · have hk' : env.incomplete k = false := by
        cases hq : env.incomplete k
        · rfl
        · exact absurd hq hk
      obtain ⟨q, hq, hqi⟩ := h
      rcases List.mem_cons.mp hq with rfl | hmem
      · exact absurd hqi hk
      · have := ih (i + 1) ⟨q, hmem, hqi⟩
        simp [nds.buildLockItems, hk', this]

end CoordinatorLemmas

/-- Claim C1: for a batch in which every key is complete, deleteMulti
first installs one lock-marker item per key through the cache
SetMulti; on any SetMulti error it returns that error with the Store
never called, and on SetMulti success it calls the Store DeleteMulti
and returns exactly its result. -/
theorem claim_C1 (env : nds.Env) (keys : List String)
    (hc : ∀ k ∈ keys, env.incomplete k = false) :
    ∃ items, nds.buildLockItems env keys 0 = Except.ok items ∧
      items.length = keys.length ∧
      (∀ e, env.memcacheSetMulti items = some e →
        nds.deleteMulti env keys = (some e, [nds.Call.memcacheSet items])) ∧
      (env.memcacheSetMulti items = none →
        nds.deleteMulti env keys =
          (env.datastoreDeleteMulti keys,
           [nds.Call.memcacheSet items, nds.Call.storeDelete keys])) := by
  obtain ⟨items, hok, hlen, -⟩ := buildLockItems_complete env keys 0 hc
  refine ⟨items, hok, hlen, ?_, ?_⟩
  · intro e he
    simp [nds.deleteMulti, hok, he]
  · intro he
    simp [nds.deleteMulti, hok, he]

theorem claim_C1_witness :
    (∀ k ∈ ["k1", "k2"],
      (nds.Env.mk (fun _ => false) (fun s => s) (fun _ => 5)
        (fun _ => none) (fun _ => none)).incomplete k = false) ∧
    (∃ items,
      nds.buildLockItems
        (nds.Env.mk (fun _ => false) (fun s => s) (fun _ => 5)
          (fun _ => none) (fun _ => none)) ["k1", "k2"] 0 = Except.ok items ∧
      items.length = (["k1", "k2"] : List String).length ∧
      (∀ e, (nds.Env.mk (fun _ => false) (fun s => s) (fun _ => 5)
          (fun _ => none) (fun _ => none)).memcacheSetMulti items = some e →
        nds.deleteMulti
          (nds.Env.mk (fun _ => false) (fun s => s) (fun _ => 5)
            (fun _ => none) (fun _ => none)) ["k1", "k2"] =
          (some e, [nds.Call.memcacheSet items])) ∧
      ((nds.Env.mk (fun _ => false) (fun s => s) (fun _ => 5)
          (fun _ => none) (fun _ => none)).memcacheSetMulti items = none →
        nds.deleteMulti
          (nds.Env.mk (fun _ => false) (fun s => s) (fun _ => 5)
            (fun _ => none) (fun _ => none)) ["k1", "k2"] =
          ((nds.Env.mk (fun _ => false) (fun s => s) (fun _ => 5)
            (fun _ => none) (fun _ => none)).datastoreDeleteMulti ["k1", "k2"],
           [nds.Call.memcacheSet items, nds.Call.storeDelete ["k1", "k2"]]))) :=
  ⟨fun _ _ => rfl, claim_C1 _ _ (fun _ _ => rfl)⟩

/-- Claim C2: a batch containing an incomplete key makes deleteMulti
return datastore.ErrInvalidKey with no cache SetMulti call and no
Store DeleteMulti call issued. -/
theorem claim_C2 (env : nds.Env) (keys : List String)
    (h : ∃ k ∈ keys, env.incomplete k = true) :
    nds.deleteMulti env keys = (some Err.invalidKey, []) := by
  simp [nds.deleteMulti, buildLockItems_incomplete env keys 0 h]

theorem claim_C2_witness :
    (∃ k ∈ ["k1", "bad"],
      (nds.Env.mk (fun s => s = "bad") (fun s => s) (fun _ => 5)
        (fun _ => some (Err.ioErr 3)) (fun _ => none)).incomplete k = true) ∧
    nds.deleteMulti
      (nds.Env.mk (fun s => s = "bad") (fun s => s) (fun _ => 5)
        (fun _ => some (Err.ioErr 3)) (fun _ => none)) ["k1", "bad"] =
      (some Err.invalidKey, []) :=
  ⟨⟨"bad", by simp, by simp⟩, claim_C2 _ _ ⟨"bad", by simp, by simp⟩⟩

/-- Claim C7: for every complete key of a delete batch the coordinator
builds exactly one lock-marker item whose Key is the cache key derived
from the Store key, whose Value is the fixed locked sentinel payload,
whose Flags is the fresh random 32-bit draw of that item, and whose
Expiration is the fixed short lock duration. -/
theorem claim_C7 (env : nds.Env) (keys : List String)
    (hc : ∀ k ∈ keys, env.incomplete k = false) :
    ∃ items, nds.buildLockItems env keys 0 = Except.ok items ∧
      items.length = keys.length ∧
      ∀ j (hj : j < keys.length),
        items[j]? = some
          { Key := env.createMemcacheKey (keys.get ⟨j, hj⟩)
            Flags := env.randUint32 j % 4294967296
            Value := nds.memcacheLock
            Expiration := nds.memcacheLockTime } := by
  obtain ⟨items, hok, hlen, hget⟩ := buildLockItems_complete env keys 0 hc
  refine ⟨items, hok, hlen, ?_⟩
  intro j hj
  simpa [nds.mkLockItem] using hget j hj

theorem claim_C7_witness :
    (∀ k ∈ ["a", "b"],
      (nds.Env.mk (fun _ => false) (fun s => String.append "m:" s) (fun i => i + 9)
        (fun _ => none) (fun _ => none)).incomplete k = false) ∧
    (∃ items,
      nds.buildLockItems
        (nds.Env.mk (fun _ => false) (fun s => String.append "m:" s) (fun i => i + 9)
          (fun _ => none) (fun _ => none)) ["a", "b"] 0 = Except.ok items ∧
      items.length = (["a", "b"] : List String).length ∧
      ∀ j (hj : j < (["a", "b"] : List String).length),
        items[j]? = some
          { Key := (nds.Env.mk (fun _ => false) (fun s => String.append "m:" s)
              (fun i => i + 9) (fun _ => none)
              (fun _ => none)).createMemcacheKey ((["a", "b"] : List String).get ⟨j, hj⟩)
            Flags := (nds.Env.mk (fun _ => false) (fun s => String.append "m:" s)
              (fun i => i + 9) (fun _ => none) (fun _ => none)).randUint32 j % 4294967296
            Value := nds.memcacheLock
            Expiration := nds.memcacheLockTime }) :=
  ⟨fun _ _ => rfl, claim_C7 _ _ (fun _ _ => rfl)⟩

/-- Claim C9: on a context that is not the package-internal context,
DeleteMulti bypasses the coordination protocol and delegates directly
to the Store: its result is exactly the Store result and the only call
issued is the Store DeleteMulti, so no cache operation occurs. -/
theorem claim_C9 (env : nds.Env) (n : Nat) (keys : List String) :
    nds.DeleteMulti env (nds.AppengineCtx.other n) keys =
      (env.datastoreDeleteMulti keys, [nds.Call.storeDelete keys]) ∧
    ∀ items, nds.Call.memcacheSet items ∉
      (nds.DeleteMulti env (nds.AppengineCtx.other n) keys).2 := by
  refine ⟨rfl, ?_⟩
  intro items
  simp [nds.DeleteMulti]

/-- Claim C3: encoding a Flags/Value pair as the wire payload and
decoding that payload the way GetMulti does yields byte-identical
Flags and Value, for any uint32 flags and any value length. -/
theorem claim_C3 (key : String) (flags : Nat) (value : List Nat)
    (h : flags < 4294967296) :
    redis.decodeEntry key (redis.encodePayload flags value) =
      Except.ok { Key := key
                  Flags := flags
                  Value := value
                  Expiration := 0
                  casInfo := some (redis.encodePayload flags value) } := by
  have hlen : ¬ (redis.encodePayload flags value).length < 4 := by
    simp [redis.encodePayload, redis.uint32LE]
  have hflags : redis.fromLE4 (redis.encodePayload flags value) = flags := by
    simp only [redis.encodePayload, redis.uint32LE, List.cons_append, List.nil_append,
      redis.fromLE4]
    omega
  have hdrop : (redis.encodePayload flags value).drop 4 = value := by
    simp [redis.encodePayload, redis.uint32LE]
  simp [redis.decodeEntry, hlen, hflags, hdrop]

theorem claim_C3_witness :
    (300 : Nat) < 4294967296 ∧
    redis.decodeEntry "a" (redis.encodePayload 300 [7, 8, 9]) =
      Except.ok { Key := "a"
                  Flags := 300
                  Value := [7, 8, 9]
                  Expiration := 0
                  casInfo := some (redis.encodePayload 300 [7, 8, 9]) } :=
  ⟨by decide, claim_C3 "a" 300 [7, 8, 9] (by decide)⟩

section ScriptLemmas

/-- Truncating a duration toward zero to whole milliseconds and then
dividing by one millisecond is plain truncated division by one
millisecond. -/
theorem goTruncate_tdiv (d : Int) :
    Int.tdiv (redis.goTruncate d 1000000) 1000000 = Int.tdiv d 1000000 := by
  have h := Int.tdiv_add_tmod d 1000000
  have h2 : redis.goTruncate d 1000000 = 1000000 * Int.tdiv d 1000000 := by
    simp only [redis.goTruncate]
    omega
  rw [h2, Int.mul_tdiv_cancel_left _ (by norm_num)]

end ScriptLemmas

/-- Claim C8: the expiration argument CompareAndSwapMulti passes to
the CAS script is the item Expiration truncated to whole milliseconds
when the Expiration is non-zero and -1 when it is zero, and the script
performs the conditional write with a millisecond expiration exactly
when the argument is non-negative, an unconditional no-expiry set when
it is negative, and the conflict reply when the stored value does not
match the token. -/
theorem claim_C8 (sha : String) (it : nds.Item) (cas : List Nat)
    (cur : Option (List Nat)) (key : String) (expected newVal : List Nat)
    (exp : Int) :
    redis.casCmd sha it cas =
      redis.Cmd.evalsha sha it.Key cas (redis.encodePayload it.Flags it.Value)
        (if it.Expiration = 0 then -1 else Int.tdiv it.Expiration 1000000) ∧
    (cur = some expected → 0 ≤ exp →
      redis.casScriptRun cur key expected newVal exp =
        redis.ScriptEffect.setPX key newVal exp) ∧
    (cur = some expected → exp < 0 →
      redis.casScriptRun cur key expected newVal exp =
        redis.ScriptEffect.setPlain key newVal) ∧
    (cur ≠ some expected →
      redis.casScriptRun cur key expected newVal exp =
        redis.ScriptEffect.conflictReply) := by
  refine ⟨?_, ?_, ?_, ?_⟩
  · simp only [redis.casCmd, goTruncate_tdiv]
  · intro hcur hexp
    simp [redis.casScriptRun, hcur, hexp]
  · intro hcur hexp
    simp [redis.casScriptRun, hcur, not_le.mpr hexp]
  · intro hcur
    simp [redis.casScriptRun, hcur]

theorem claim_C8_witness :
    (some [1, 2] : Option (List Nat)) = some [1, 2] ∧ (0 : Int) ≤ 2 ∧
    redis.casCmd "sha"
      (nds.Item.mk "k" [9] 7 2500000 (some [1, 2])) [1, 2] =
      redis.Cmd.evalsha "sha" "k" [1, 2] (redis.encodePayload 7 [9])
        (if (2500000 : Int) = 0 then -1 else Int.tdiv 2500000 1000000) ∧
    redis.casScriptRun (some [1, 2]) "k" [1, 2] [3] 2 =
      redis.ScriptEffect.setPX "k" [3] 2 :=
  ⟨rfl, by decide,
    (claim_C8 "sha" (nds.Item.mk "k" [9] 7 2500000 (some [1, 2])) [1, 2]
      (some [1, 2]) "k" [1, 2] [3] 2).1,
    ((claim_C8 "sha" (nds.Item.mk "k" [9] 7 2500000 (some [1, 2])) [1, 2]
      (some [1, 2]) "k" [1, 2] [3] 2).2.1 rfl (by decide))⟩

/-- Claim C5: for every pipelined batch call (set, so AddMulti and
SetMulti, CompareAndSwapMulti and the backend DeleteMulti), a failed
flush is returned as the single call-wide error superseding all
per-slot bookkeeping, and when the flush succeeds the call returns
either nil or a positional MultiError. -/
theorem claim_C5 (conn : redis.Conn) (nx : Bool) (sha : String)
    (items : List nds.Item) (keys : List String) :
    (∀ e, conn.flushErr = some e →
      redis.set conn nx items = some e ∧
      redis.AddMulti conn items = some e ∧
      redis.SetMulti conn items = some e ∧
      redis.CompareAndSwapMulti conn sha items = some e ∧
      redis.DeleteMulti conn keys = some e) ∧
    (conn.flushErr = none →
      (redis.set conn nx items = none ∨
        ∃ me, redis.set conn nx items = some (Err.multi me)) ∧
      (redis.CompareAndSwapMulti conn sha items = none ∨
        ∃ me, redis.CompareAndSwapMulti conn sha items = some (Err.multi me)) ∧
      (redis.DeleteMulti conn keys = none ∨
        ∃ me, redis.DeleteMulti conn keys = some (Err.multi me))) := by
  constructor
  · intro e he
    refine ⟨?_, ?_, ?_, ?_, ?_⟩ <;>
      simp [redis.set, redis.AddMulti, redis.SetMulti,
        redis.CompareAndSwapMulti, redis.DeleteMulti, he]
  · intro he
    refine ⟨?_, ?_, ?_⟩
    · by_cases hd : (redis.setDrain conn nx
        ((redis.setSendLoop conn nx items 0).map Prod.fst) 0).2
      · exact Or.inr ⟨(redis.setDrain conn nx
          ((redis.setSendLoop conn nx items 0).map Prod.fst) 0).1,
          by simp [redis.set, he, hd]⟩
      · exact Or.inl (by simp [redis.set, he, hd])
    · by_cases hd : (redis.casDrain conn
        ((redis.casSendLoop conn sha items 0).map Prod.fst) 0).2
      · exact Or.inr ⟨(redis.casDrain conn
          ((redis.casSendLoop conn sha items 0).map Prod.fst) 0).1,
          by simp [redis.CompareAndSwapMulti, he, hd]⟩
      · exact Or.inl (by simp [redis.CompareAndSwapMulti, he, hd])
    · by_cases hd : (redis.delDrain conn
        ((redis.delSendLoop conn keys 0).map Prod.fst) 0).2
      · exact Or.inr ⟨(redis.delDrain conn
          ((redis.delSendLoop conn keys 0).map Prod.fst) 0).1,
          by simp [redis.DeleteMulti, he, hd]⟩
      · exact Or.inl (by simp [redis.DeleteMulti, he, hd])

theorem claim_C5_witness :
    (redis.Conn.mk (fun _ => some (Err.ioErr 4)) (some (Err.ioErr 7))
      (fun _ => Except.ok (RValue.simple "OK"))
      (fun _ => Except.ok [])).flushErr = some (Err.ioErr 7) ∧
    redis.set
      (redis.Conn.mk (fun _ => some (Err.ioErr 4)) (some (Err.ioErr 7))
        (fun _ => Except.ok (RValue.simple "OK")) (fun _ => Except.ok []))
      false [nds.Item.mk "k" [1] 0 0 none] = some (Err.ioErr 7) ∧
    redis.CompareAndSwapMulti
      (redis.Conn.mk (fun _ => some (Err.ioErr 4)) (some (Err.ioErr 7))
        (fun _ => Except.ok (RValue.simple "OK")) (fun _ => Except.ok []))
      "sha" [nds.Item.mk "k" [1] 0 0 none] = some (Err.ioErr 7) ∧
    redis.DeleteMulti
      (redis.Conn.mk (fun _ => some (Err.ioErr 4)) (some (Err.ioErr 7))
        (fun _ => Except.ok (RValue.simple "OK")) (fun _ => Except.ok []))
      ["k"] = some (Err.ioErr 7) := by
  have h := (claim_C5
    (redis.Conn.mk (fun _ => some (Err.ioErr 4)) (some (Err.ioErr 7))
      (fun _ => Except.ok (RValue.simple "OK")) (fun _ => Except.ok []))
    false "sha" [nds.Item.mk "k" [1] 0 0 none] ["k"]).1 (Err.ioErr 7) rfl
  exact ⟨rfl, h.1, h.2.2.2.1, h.2.2.2.2⟩

/-- Claim C10: the CAS token attached to an item returned by GetMulti
is a fresh copy of the entire raw stored payload: it lives in a
backing array distinct from the one the Value slice aliases, it equals
the exact byte string the server holds, and after any mutation
confined to the Value backing array it still reads as that byte
string; at the value level decodeEntry records exactly the raw payload
as the casInfo token. -/
theorem claim_C10 (h : redis.Heap) (a f : Nat) (hne : f ≠ a)
    (payload : List Nat) (hpay : h a = payload) (hlen : 4 ≤ payload.length)
    (key : String)
    (h2 : redis.Heap) (hmut : ∀ b, b ≠ a → h2 b = (redis.decodeRefs h a f).1 b) :
    (redis.decodeRefs h a f).2.2.arr ≠ (redis.decodeRefs h a f).2.1.arr ∧
    redis.readSlice (redis.decodeRefs h a f).1 (redis.decodeRefs h a f).2.2 = payload ∧
    redis.readSlice (redis.decodeRefs h a f).1 (redis.decodeRefs h a f).2.1 =
      payload.drop 4 ∧
    redis.readSlice h2 (redis.decodeRefs h a f).2.2 = payload ∧
    ∃ item, redis.decodeEntry key payload = Except.ok item ∧
      item.casInfo = some payload := by
  have hfa : (redis.decodeRefs h a f).1 f = payload := by
    simp [redis.decodeRefs, hpay]
  refine ⟨by simpa [redis.decodeRefs] using hne, ?_, ?_, ?_, ?_⟩
  · simp [redis.readSlice, redis.decodeRefs, hpay, List.take_of_length_le]
  · simp only [redis.readSlice, redis.decodeRefs, hpay, ite_self]
    apply List.take_of_length_le
    simp
  · have hb : h2 f = payload := by rw [hmut f hne]; exact hfa
    simp [redis.readSlice, redis.decodeRefs, hb, hpay]
  · refine ⟨nds.Item.mk key (payload.drop 4) (redis.fromLE4 payload) 0 (some payload),
      ?_, rfl⟩
    simp [redis.decodeEntry, Nat.not_lt.mpr hlen]

theorem claim_C10_witness :
    (1 : Nat) ≠ 0 ∧
    (fun b => if b = 0 then [1, 0, 0, 0, 5, 6] else ([] : List Nat)) 0 =
      [1, 0, 0, 0, 5, 6] ∧
    (4 : Nat) ≤ ([1, 0, 0, 0, 5, 6] : List Nat).length ∧
    (∀ b, b ≠ 0 →
      (fun b => if b = 0 then [9, 9, 9, 9, 9, 9] else
        (redis.decodeRefs
          (fun b => if b = 0 then [1, 0, 0, 0, 5, 6] else ([] : List Nat)) 0 1).1 b) b =
      (redis.decodeRefs
        (fun b => if b = 0 then [1, 0, 0, 0, 5, 6] else ([] : List Nat)) 0 1).1 b) ∧
    ((redis.decodeRefs
        (fun b => if b = 0 then [1, 0, 0, 0, 5, 6] else ([] : List Nat)) 0 1).2.2.arr ≠
      (redis.decodeRefs
        (fun b => if b = 0 then [1, 0, 0, 0, 5, 6] else ([] : List Nat)) 0 1).2.1.arr ∧
     redis.readSlice
       (redis.decodeRefs
         (fun b => if b = 0 then [1, 0, 0, 0, 5, 6] else ([] : List Nat)) 0 1).1
       (redis.decodeRefs
         (fun b => if b = 0 then [1, 0, 0, 0, 5, 6] else ([] : List Nat)) 0 1).2.2 =
       [1, 0, 0, 0, 5, 6] ∧
     redis.readSlice
       (redis.decodeRefs
         (fun b => if b = 0 then [1, 0, 0, 0, 5, 6] else ([] : List Nat)) 0 1).1
       (redis.decodeRefs
         (fun b => if b = 0 then [1, 0, 0, 0, 5, 6] else ([] : List Nat)) 0 1).2.1 =
       ([1, 0, 0, 0, 5, 6] : List Nat).drop 4 ∧
     redis.readSlice
       (fun b => if b = 0 then [9, 9, 9, 9, 9, 9] else
         (redis.decodeRefs
           (fun b => if b = 0 then [1, 0, 0, 0, 5, 6] else ([] : List Nat)) 0 1).1 b)
       (redis.decodeRefs
         (fun b => if b = 0 then [1, 0, 0, 0, 5, 6] else ([] : List Nat)) 0 1).2.2 =
       [1, 0, 0, 0, 5, 6] ∧
     ∃ item, redis.decodeEntry "k" [1, 0, 0, 0, 5, 6] = Except.ok item ∧
       item.casInfo = some [1, 0, 0, 0, 5, 6]) :=
  ⟨by decide, rfl, by decide, fun b hb => by simp [hb],
    claim_C10 _ 0 1 (by decide) _ rfl (by decide) "k" _
      (fun b hb => by simp [hb])⟩

section CasLemmas

theorem countTok_cons (it : nds.Item) (l : List nds.Item) :
    redis.countTok (it :: l) =
      (if it.casInfo.isSome then 1 else 0) + redis.countTok l := by
  cases h : it.casInfo <;> simp [redis.countTok, List.filter_cons, h, Nat.add_comm]

theorem casDrain_cons_some (conn : redis.Conn) (e : Err)
    (rest : List (Option Err)) (j : Nat) :
    (redis.casDrain conn (some e :: rest) j).1 =
      some e :: (redis.casDrain conn rest j).1 := by
  simp [redis.casDrain]

theorem casDrain_cons_none (conn : redis.Conn) (rest : List (Option Err)) (j : Nat) :
    (redis.casDrain conn (none :: rest) j).1 =
      redis.casTranslate (conn.recv j) :: (redis.casDrain conn rest (j + 1)).1 := by
  simp only [redis.casDrain]
  cases h : redis.casTranslate (conn.recv j) <;> simp [h]

/-- Per-slot characterisation of the CompareAndSwapMulti pipeline when
no Send call fails: slot j holds nds.ErrNotStored when its item has no
CAS token, and otherwise the translation of the reply drained for it,
which is the reply numbered by the count of tokened items before j. -/
theorem casME_get (conn : redis.Conn) (sha : String)
    (hsend : ∀ n, conn.sendErr n = none) :
    ∀ (items : List nds.Item) (s r j : Nat) (hj : j < items.length),
      (redis.casDrain conn
        ((redis.casSendLoop conn sha items s).map Prod.fst) r).1[j]? =
        some (match (items.get ⟨j, hj⟩).casInfo with
          | none => some Err.notStored
          | some _ =>
            redis.casTranslate (conn.recv (r + redis.countTok (items.take j)))) := by
  intro items
  induction items with
  | nil => intro s r j hj; exact absurd hj (by simp)
  | cons it rest ih =>
    intro s r j hj
    cases hcas : it.casInfo with
    | none =>
      simp only [redis.casSendLoop, hcas, List.map_cons, casDrain_cons_some]
      cases j with
      | zero => simp [hcas]
      | succ j =>
        have hj' : j < rest.length := by simpa using hj
        have := ih s r j hj'
        simp only [List.getElem?_cons_succ, this, List.get_cons_succ, List.take_succ_cons,
          countTok_cons, hcas, Option.isSome_none, Bool.false_eq_true, if_false,
          Nat.zero_add]
    | some cas =>
      simp only [redis.casSendLoop, hcas, List.map_cons, hsend s, casDrain_cons_none]
      cases j with
      | zero => simp [hcas, redis.countTok]
      | succ j =>
        have hj' : j < rest.length := by simpa using hj
        have := ih (s + 1) (r + 1) j hj'
        simp only [List.getElem?_cons_succ, this, List.get_cons_succ, List.take_succ_cons,
          countTok_cons, hcas, Option.isSome_some, if_true]
        have harith : r + 1 + redis.countTok (rest.take j) =
            r + (1 + redis.countTok (rest.take j)) := by omega
        rw [harith]

/-- Slots whose item carries no CAS token queue no command. -/
theorem casSendLoop_get_noTok (conn : redis.Conn) (sha : String) :
    ∀ (items : List nds.Item) (s j : Nat) (hj : j < items.length),
      (items.get ⟨j, hj⟩).casInfo = none →
      (redis.casSendLoop conn sha items s)[j]? = some (some Err.notStored, none) := by
  intro items
  induction items with
  | nil => intro s j hj; exact absurd hj (by simp)
  | cons it rest ih =>
    intro s j hj hnone
    cases j with
    | zero =>
      have : it.casInfo = none := by simpa using hnone
      simp [redis.casSendLoop, this]
    | succ j =>
      have hj' : j < rest.length := by simpa using hj
      have hnone' : (rest.get ⟨j, hj'⟩).casInfo = none := by simpa using hnone
      cases hcas : it.casInfo <;>
        simp [redis.casSendLoop, hcas, ih (s + 1) j hj' hnone', ih s j hj' hnone']

end CasLemmas

/-- Claim C4: in CompareAndSwapMulti, an item with no valid CAS token
gets a per-slot nds.ErrNotStored and queues no command; an item whose
reply is the scripted conflict signal gets nds.ErrCASConflict; a slot
whose reply succeeds carries no error; and the call itself returns
either nil or the positional MultiError of these slots. -/
theorem claim_C4 (conn : redis.Conn) (sha : String) (items : List nds.Item)
    (hflush : conn.flushErr = none) (hsend : ∀ n, conn.sendErr n = none) :
    (redis.CompareAndSwapMulti conn sha items = none ∨
      redis.CompareAndSwapMulti conn sha items =
        some (Err.multi (redis.casMultiME conn sha items))) ∧
    ∀ j (hj : j < items.length),
      ((items.get ⟨j, hj⟩).casInfo = none →
        (redis.casMultiME conn sha items)[j]? = some (some Err.notStored) ∧
        (redis.casSendLoop conn sha items 0)[j]? = some (some Err.notStored, none)) ∧
      ((items.get ⟨j, hj⟩).casInfo.isSome = true →
        (conn.recv (redis.countTok (items.take j)) =
            Except.error (Err.serverErr "cas conflict") →
          (redis.casMultiME conn sha items)[j]? = some (some Err.casConflict)) ∧
        (∀ v, conn.recv (redis.countTok (items.take j)) = Except.ok v →
          (redis.casMultiME conn sha items)[j]? = some none)) := by
  constructor
  · by_cases hd : (redis.casDrain conn
      ((redis.casSendLoop conn sha items 0).map Prod.fst) 0).2
    · exact Or.inr (by simp [redis.CompareAndSwapMulti, redis.casMultiME, hflush, hd])
    · exact Or.inl (by simp [redis.CompareAndSwapMulti, hflush, hd])
  · intro j hj
    have hme := casME_get conn sha hsend items 0 0 j hj
    constructor
    · intro hnone
      rw [hnone] at hme
      refine ⟨?_, casSendLoop_get_noTok conn sha items 0 j hj hnone⟩
      simpa [redis.casMultiME] using hme
    · intro hsome
      obtain ⟨cas, hcas⟩ := Option.isSome_iff_exists.mp hsome
      rw [hcas] at hme
      rw [Nat.zero_add] at hme
      constructor
      · intro hrecv
        rw [hrecv] at hme
        have ht : redis.casTranslate
            (Except.error (Err.serverErr "cas conflict")) = some Err.casConflict := by
          simp [redis.casTranslate, Err.isRedisNil, Err.errString]
        rw [ht] at hme
        simpa [redis.casMultiME] using hme
      · intro v hrecv
        rw [hrecv] at hme
        simpa [redis.casMultiME, redis.casTranslate] using hme

theorem claim_C4_witness :
    (redis.Conn.mk (fun _ => none) none
      (fun j => if j = 0 then Except.error (Err.serverErr "cas conflict")
        else Except.ok (RValue.simple "OK"))
      (fun _ => Except.ok [])).flushErr = none ∧
    (∀ n, (redis.Conn.mk (fun _ => none) none
      (fun j => if j = 0 then Except.error (Err.serverErr "cas conflict")
        else Except.ok (RValue.simple "OK"))
      (fun _ => Except.ok [])).sendErr n = none) ∧
    (redis.casMultiME (redis.Conn.mk (fun _ => none) none
      (fun j => if j = 0 then Except.error (Err.serverErr "cas conflict")
        else Except.ok (RValue.simple "OK"))
      (fun _ => Except.ok [])) "sh"
      [nds.Item.mk "a" [1] 0 0 none, nds.Item.mk "b" [2] 0 0 (some [9]),
       nds.Item.mk "c" [3] 0 0 (some [8])])[0]? = some (some Err.notStored) ∧
    (redis.casMultiME (redis.Conn.mk (fun _ => none) none
      (fun j => if j = 0 then Except.error (Err.serverErr "cas conflict")
        else Except.ok (RValue.simple "OK"))
      (fun _ => Except.ok [])) "sh"
      [nds.Item.mk "a" [1] 0 0 none, nds.Item.mk "b" [2] 0 0 (some [9]),
       nds.Item.mk "c" [3] 0 0 (some [8])])[1]? = some (some Err.casConflict) ∧
    (redis.casMultiME (redis.Conn.mk (fun _ => none) none
      (fun j => if j = 0 then Except.error (Err.serverErr "cas conflict")
        else Except.ok (RValue.simple "OK"))
      (fun _ => Except.ok [])) "sh"
      [nds.Item.mk "a" [1] 0 0 none, nds.Item.mk "b" [2] 0 0 (some [9]),
       nds.Item.mk "c" [3] 0 0 (some [8])])[2]? = some none := by
  have h := claim_C4 (redis.Conn.mk (fun _ => none) none
    (fun j => if j = 0 then Except.error (Err.serverErr "cas conflict")
      else Except.ok (RValue.simple "OK"))
    (fun _ => Except.ok [])) "sh"
    [nds.Item.mk "a" [1] 0 0 none, nds.Item.mk "b" [2] 0 0 (some [9]),
     nds.Item.mk "c" [3] 0 0 (some [8])] rfl (fun _ => rfl)
  refine ⟨rfl, fun _ => rfl, ?_, ?_, ?_⟩
  · exact ((h.2 0 (by decide)).1 rfl).1
  · exact ((h.2 1 (by decide)).2 rfl).1 rfl
  · exact ((h.2 2 (by decide)).2 rfl).2 (RValue.simple "OK") rfl

section GetLemmas

/-- The positional error list of the GetMulti decode loop is
determined slot by slot: no entry for an absent payload, a
malformed-payload error exactly for a payload shorter than the 4-byte
header, and no entry otherwise, independently of sibling slots and of
the accumulated map. -/
theorem getLoop_me_get :
    ∀ (pairs : List (String × Option (List Nat))) (m : String → Option nds.Item)
      (j : Nat) (hj : j < pairs.length),
      (redis.getLoop m pairs).2.1[j]? =
        some (match (pairs.get ⟨j, hj⟩).2 with
          | none => none
          | some ci =>
            if ci.length < 4 then some (Err.malformed ci.length) else none) := by
  intro pairs
  induction pairs with
  | nil => intro m j hj; exact absurd hj (by simp)
  | cons p rest ih =>
    intro m j hj
    obtain ⟨key, c⟩ := p
    cases c with
    | none =>
      cases j with
      | zero => simp [redis.getLoop]
      | succ j =>
        have hj' : j < rest.length := by simpa using hj
        simp only [redis.getLoop, List.getElem?_cons_succ, List.get_cons_succ]
        exact ih m j hj'
    | some ci =>
      by_cases h4 : ci.length < 4
      · cases j with
        | zero => simp [redis.getLoop, redis.decodeEntry, h4]
        | succ j =>
          have hj' : j < rest.length := by simpa using hj
          simp only [redis.getLoop, redis.decodeEntry, if_pos h4,
            List.getElem?_cons_succ, List.get_cons_succ]
          exact ih m j hj'
      · cases j with
        | zero => simp [redis.getLoop, redis.decodeEntry, h4]
        | succ j =>
          have hj' : j < rest.length := by simpa using hj
          simp only [redis.getLoop, redis.decodeEntry, if_neg h4,
            List.getElem?_cons_succ, List.get_cons_succ]
          exact ih (redis.mapUpdate m key
            (nds.Item.mk key (ci.drop 4) (redis.fromLE4 ci) 0 (some ci))) j hj'

/-- A key that occurs in no pair is left untouched by the decode loop. -/
theorem getLoop_not_mem :
    ∀ (pairs : List (String × Option (List Nat))) (m : String → Option nds.Item)
      (k : String), k ∉ pairs.map Prod.fst → (redis.getLoop m pairs).1 k = m k := by
  intro pairs
  induction pairs with
  | nil => intro m k _; rfl
  | cons p rest ih =>
    intro m k hk
    obtain ⟨key, c⟩ := p
    have hk1 : k ≠ key := by
      intro h
      exact hk (by simp [h])
    have hk2 : k ∉ rest.map Prod.fst := by
      intro h
      exact hk (by simp [h])
    cases c with
    | none => simpa [redis.getLoop] using ih m k hk2
    | some ci =>
      by_cases h4 : ci.length < 4
      · simp only [redis.getLoop, redis.decodeEntry, if_pos h4]
        exact ih m k hk2
      · simp only [redis.getLoop, redis.decodeEntry, if_neg h4]
        rw [ih _ k hk2]
        simp [redis.mapUpdate, hk1]

theorem decodeEntry_short (key : String) (ci : List Nat) (h4 : ci.length < 4) :
    redis.decodeEntry key ci = Except.error (Err.malformed ci.length) := by
  simp [redis.decodeEntry, h4]

theorem decodeEntry_ok (key : String) (ci : List Nat) (h4 : ¬ ci.length < 4) :
    redis.decodeEntry key ci =
      Except.ok (nds.Item.mk key (ci.drop 4) (redis.fromLE4 ci) 0 (some ci)) := by
  simp [redis.decodeEntry, h4]

theorem getLoop_cons_short (m : String → Option nds.Item) (key : String)
    (ci : List Nat) (rest : List (String × Option (List Nat))) (h4 : ci.length < 4) :
    redis.getLoop m ((key, some ci) :: rest) =
      ((redis.getLoop m rest).1,
       some (Err.malformed ci.length) :: (redis.getLoop m rest).2.1, true) := by
  simp [redis.getLoop, decodeEntry_short key ci h4]

theorem getLoop_cons_ok (m : String → Option nds.Item) (key : String)
    (ci : List Nat) (rest : List (String × Option (List Nat))) (h4 : ¬ ci.length < 4) :
    redis.getLoop m ((key, some ci) :: rest) =
      ((redis.getLoop (redis.mapUpdate m key
          (nds.Item.mk key (ci.drop 4) (redis.fromLE4 ci) 0 (some ci))) rest).1,
       none :: (redis.getLoop (redis.mapUpdate m key
          (nds.Item.mk key (ci.drop 4) (redis.fromLE4 ci) 0 (some ci))) rest).2.1,
       (redis.getLoop (redis.mapUpdate m key
          (nds.Item.mk key (ci.drop 4) (redis.fromLE4 ci) 0 (some ci))) rest).2.2) := by
  simp [redis.getLoop, decodeEntry_ok key ci h4]

/-- Per-slot characterisation of the result map of the decode loop for
pairwise-distinct keys: a decodable payload lands in the map under its
key, anything else leaves that key as the accumulator had it. -/
theorem getLoop_result_get :
    ∀ (pairs : List (String × Option (List Nat))) (m : String → Option nds.Item)
      (j : Nat) (hj : j < pairs.length), (pairs.map Prod.fst).Nodup →
      (redis.getLoop m pairs).1 pairs[j].1 =
        match pairs[j].2 with
        | none => m pairs[j].1
        | some ci =>
          if ci.length < 4 then m pairs[j].1
          else some (nds.Item.mk pairs[j].1 (ci.drop 4)
            (redis.fromLE4 ci) 0 (some ci)) := by
  intro pairs
  induction pairs with
  | nil => intro m j hj; exact absurd hj (by simp)
  | cons p rest ih =>
    intro m j hj hnodup
    obtain ⟨key, c⟩ := p
    rw [List.map_cons] at hnodup
    have hhead : key ∉ rest.map Prod.fst := (List.nodup_cons.mp hnodup).1
    have htail : (rest.map Prod.fst).Nodup := (List.nodup_cons.mp hnodup).2
    cases j with
    | zero =>
      cases c with
      | none =>
        simp only [List.getElem_cons_zero, redis.getLoop]
        exact getLoop_not_mem rest m key hhead
      | some ci =>
        by_cases h4 : ci.length < 4
        · simp only [List.getElem_cons_zero, getLoop_cons_short m key ci rest h4]
          rw [getLoop_not_mem rest m key hhead]
          simp [h4]
        · simp only [List.getElem_cons_zero, getLoop_cons_ok m key ci rest h4]
          rw [getLoop_not_mem rest _ key hhead]
          simp [redis.mapUpdate, h4]
    | succ j =>
      have hj' : j < rest.length := by simpa using hj
      have hne : rest[j].1 ≠ key := by
        intro h
        have hmem : rest[j].1 ∈ rest.map Prod.fst :=
          List.mem_map_of_mem Prod.fst (List.getElem_mem hj')
        exact hhead (h ▸ hmem)
      have IH := ih m j hj' htail
      cases c with
      | none =>
        simp only [List.getElem_cons_succ, redis.getLoop]
        exact IH
      | some ci =>
        by_cases h4 : ci.length < 4
        · simp only [List.getElem_cons_succ, getLoop_cons_short m key ci rest h4]
          exact IH
        · have IH2 := ih (redis.mapUpdate m key
            (nds.Item.mk key (ci.drop 4) (redis.fromLE4 ci) 0 (some ci))) j hj' htail
          simp only [List.getElem_cons_succ, getLoop_cons_ok m key ci rest h4]
          rw [IH2]
          cases hc : rest[j].2 with
          | none => simp [hc, redis.mapUpdate, hne]
          | some ci' =>
            by_cases h4' : ci'.length < 4
            · simp [hc, h4', redis.mapUpdate, hne]
            · simp [hc, h4']

end GetLemmas

/-- Claim C6: in a GetMulti batch, a stored payload shorter than 4
bytes yields a malformed-payload error only at its own position of the
MultiError while every other key is still decoded and returned in the
result map, and absent keys are simply missing from the result map
with no error entry. -/
theorem claim_C6 (conn : redis.Conn) (keys : List String)
    (cached : List (Option (List Nat)))
    (hmget : conn.mgetReply keys = Except.ok cached)
    (hlen : cached.length = keys.length)
    (hnodup : keys.Nodup) (hne : keys ≠ []) :
    (redis.GetMulti conn keys).1 =
      some (redis.getLoop (fun _ => none) (keys.zip cached)).1 ∧
    (redis.GetMulti conn keys).2 =
      (if (redis.getLoop (fun _ => none) (keys.zip cached)).2.2 then
        some (Err.multi (redis.getLoop (fun _ => none) (keys.zip cached)).2.1)
       else none) ∧
    ∀ j (hj : j < keys.length),
      (∀ ci, cached[j]? = some (some ci) →
        (ci.length < 4 →
          (redis.getLoop (fun _ => none) (keys.zip cached)).2.1[j]? =
            some (some (Err.malformed ci.length)) ∧
          (redis.getLoop (fun _ => none) (keys.zip cached)).1 keys[j] = none) ∧
        (4 ≤ ci.length →
          (redis.getLoop (fun _ => none) (keys.zip cached)).2.1[j]? = some none ∧
          (redis.getLoop (fun _ => none) (keys.zip cached)).1 keys[j] =
            some (nds.Item.mk keys[j] (ci.drop 4) (redis.fromLE4 ci) 0 (some ci)))) ∧
      (cached[j]? = some none →
        (redis.getLoop (fun _ => none) (keys.zip cached)).2.1[j]? = some none ∧
        (redis.getLoop (fun _ => none) (keys.zip cached)).1 keys[j] = none) := by
  have hlenle : keys.length ≤ cached.length := le_of_eq hlen.symm
  have hzlen : (keys.zip cached).length = keys.length := by
    rw [List.length_zip keys cached]
    omega
  have hmap : (keys.zip cached).map Prod.fst = keys := List.map_fst_zip keys cached hlenle
  have hnodup2 : ((keys.zip cached).map Prod.fst).Nodup := by
    rw [hmap]
    exact hnodup
  have hlen0 : ¬ keys.length = 0 := by simpa using hne
  refine ⟨?_, ?_, ?_⟩
  · simp [redis.GetMulti, hlen0, hmget, hlen]
  · simp [redis.GetMulti, hlen0, hmget, hlen]
  · intro j hj
    have hjc : j < cached.length := by omega
    have hjz : j < (keys.zip cached).length := by omega
    have hzj : (keys.zip cached)[j] = (keys[j], cached[j]) := List.getElem_zip
    have hme := getLoop_me_get (keys.zip cached) (fun _ => none) j hjz
    have hres := getLoop_result_get (keys.zip cached) (fun _ => none) j hjz hnodup2
    simp only [List.get_eq_getElem, hzj] at hme
    rw [hzj] at hres
    constructor
    · intro ci hci
      have hcij : cached[j] = some ci := by
        rw [List.getElem?_eq_getElem hjc] at hci
        exact Option.some.inj hci
      rw [hcij] at hme hres
      constructor
      · intro h4
        exact ⟨by simpa [h4] using hme, by simpa [h4] using hres⟩
      · intro h4
        have h4' : ¬ ci.length < 4 := by omega
        exact ⟨by simpa [h4'] using hme, by simpa [h4'] using hres⟩
    · intro hci
      have hcij : cached[j] = none := by
        rw [List.getElem?_eq_getElem hjc] at hci
        exact Option.some.inj hci
      rw [hcij] at hme hres
      exact ⟨by simpa using hme, by simpa using hres⟩

theorem claim_C6_witness :
    (redis.Conn.mk (fun _ => none) none (fun _ => Except.ok (RValue.simple "OK"))
      (fun _ => Except.ok [some [1, 0, 0, 0, 5], some [9], none])).mgetReply
        ["a", "b", "c"] = Except.ok [some [1, 0, 0, 0, 5], some [9], none] ∧
    ([some [1, 0, 0, 0, 5], some [9], none] : List (Option (List Nat))).length =
      (["a", "b", "c"] : List String).length ∧
    (["a", "b", "c"] : List String).Nodup ∧
    (["a", "b", "c"] : List String) ≠ [] ∧
    (redis.getLoop (fun _ => none)
      ((["a", "b", "c"] : List String).zip
        [some [1, 0, 0, 0, 5], some [9], none])).1 "a" =
      some (nds.Item.mk "a" [5] 1 0 (some [1, 0, 0, 0, 5])) ∧
    (redis.getLoop (fun _ => none)
      ((["a", "b", "c"] : List String).zip
        [some [1, 0, 0, 0, 5], some [9], none])).2.1[1]? =
      some (some (Err.malformed 1)) ∧
    (redis.getLoop (fun _ => none)
      ((["a", "b", "c"] : List String).zip
        [some [1, 0, 0, 0, 5], some [9], none])).1 "c" = none := by
  have h := claim_C6
    (redis.Conn.mk (fun _ => none) none (fun _ => Except.ok (RValue.simple "OK"))
      (fun _ => Except.ok [some [1, 0, 0, 0, 5], some [9], none]))
    ["a", "b", "c"] [some [1, 0, 0, 0, 5], some [9], none]
    rfl rfl (by decide) (by decide)
  refine ⟨rfl, rfl, by decide, by decide, ?_, ?_, ?_⟩
  · have h0 := ((h.2.2 0 (by decide)).1 [1, 0, 0, 0, 5] rfl).2 (by decide)
    simpa [redis.fromLE4] using h0.2
  · have h1 := ((h.2.2 1 (by decide)).1 [9] rfl).1 (by decide)
    simpa using h1.1
  · have h2 := (h.2.2 2 (by decide)).2 rfl
    simpa using h2.2

theorem claim_C9_witness :
    nds.DeleteMulti
      (nds.Env.mk (fun _ => false) (fun s => s) (fun _ => 0)
        (fun _ => none) (fun _ => some (Err.ioErr 2)))
      (nds.AppengineCtx.other 5) ["k"] =
      ((nds.Env.mk (fun _ => false) (fun s => s) (fun _ => 0)
        (fun _ => none) (fun _ => some (Err.ioErr 2))).datastoreDeleteMulti ["k"],
       [nds.Call.storeDelete ["k"]]) ∧
    ∀ items, nds.Call.memcacheSet items ∉
      (nds.DeleteMulti
        (nds.Env.mk (fun _ => false) (fun s => s) (fun _ => 0)
          (fun _ => none) (fun _ => some (Err.ioErr 2)))
        (nds.AppengineCtx.other 5) ["k"]).2 :=
  claim_C9 _ 5 ["k"]
